import Mathlib

/-!
# Shallow embedding of the `dbr` SQL statement builder (insert.go / update.go)

The statement compilers `InsertStmt.Build` and `UpdateStmt.Build` and the
chunked execution loop `InsertStmt.ExecContext` are translated from the Go
source.  Collaborators that live outside the provided source files
(`Buffer`, `Dialect`, the `placeholder` constant, the `raw` fragment type,
the condition algebra, `exec`, `getSQL`) are modelled from the spec, as
noted on each definition.  Argument values (Go `interface{}`) are a type
parameter `α`.
-/

namespace Dbr

/-- Modelled from the spec (§4.1, Buffer): an accumulating sink for SQL text
fragments and an ordered list of bound argument values.  The source's
`Buffer` interface is not under `src/`. -/
structure Buffer (α : Type) where
  text : String
  values : List α
  deriving Repr, DecidableEq

/-- Modelled from the spec: `AppendText` / `WriteString` appends a text
fragment. -/
def Buffer.writeString {α : Type} (b : Buffer α) (s : String) : Buffer α :=
  { b with text := b.text ++ s }

/-- Modelled from the spec: `AppendValue` / `WriteValue` appends argument
values in order. -/
def Buffer.writeValue {α : Type} (b : Buffer α) (vs : List α) : Buffer α :=
  { b with values := b.values ++ vs }

/-- A fresh buffer, as created per compilation (spec §5). -/
def Buffer.empty {α : Type} : Buffer α := ⟨"", []⟩

/-- Modelled from the spec (§4.1, Dialect): identifier quoting strategy.
The dialect implementations are not under `src/`. -/
structure Dialect where
  quoteIdent : String → String

/-- Modelled from the spec: the placeholder token written whenever a value
is bound (the package-level `placeholder` constant is not under `src/`;
the positional token is `?`). -/
def placeholder : String := "?"

/-- Modelled from the spec (§3, Raw fragment): pre-written SQL text with its
own argument list.  The `raw` type is not under `src/`. -/
structure Raw (α : Type) where
  Query : String
  Value : List α
  deriving Repr, DecidableEq

/-- Error values returned by compilation: `ErrTableNotSpecified` and
`ErrColumnNotSpecified` (spec §6; the error declarations are not under
`src/`). -/
inductive DbrError where
  | tableNotSpecified
  | columnNotSpecified
  deriving Repr, DecidableEq

/-- Modelled from the spec: `raw.Build` writes the pre-written query text
verbatim and appends the fragment's own argument list; the spec gives it
no failure condition, so it always succeeds (`none` error). -/
def rawBuild {α : Type} (r : Raw α) (_d : Dialect) (buf : Buffer α) :
    Option DbrError × Buffer α :=
  (none, (buf.writeString r.Query).writeValue r.Value)

/-- Modelled from the spec (§4.2): a condition node.  Only the `Expr`
leaf is needed by the statements under verification; it compiles its
template verbatim and appends its arguments in order. -/
inductive Cond (α : Type) where
  | expr (template : String) (args : List α)
  deriving Repr, DecidableEq

/-- Modelled from the spec: compiling an `Expr` writes the template
verbatim and appends the arguments; no validation is performed. -/
def condBuild {α : Type} (_d : Dialect) (c : Cond α) (buf : Buffer α) :
    Option DbrError × Buffer α :=
  match c with
  | .expr t args => (none, (buf.writeString t).writeValue args)

/-- Modelled from the spec (§4.2, And): compiles each child joined by
`" AND "`, wrapping the whole group in parentheses when it has more than
one child; an empty list contributes nothing; a failing child would
propagate its error and abort the group. -/
def andJoin {α : Type} (d : Dialect) : List (Cond α) → Buffer α →
    Option DbrError × Buffer α
  | [], buf => (none, buf)
  | c :: rest, buf =>
    match condBuild d c buf with
    | (some e, buf1) => (some e, buf1)
    | (none, buf1) =>
      match rest with
      | [] => (none, buf1)
      | _ => andJoin d rest (buf1.writeString " AND ")

/-- Modelled from the spec (§4.2): `And(children...).Build`. -/
def andBuild {α : Type} (d : Dialect) (conds : List (Cond α)) (buf : Buffer α) :
    Option DbrError × Buffer α :=
  match conds with
  | [] => (none, buf)
  | [c] => condBuild d c buf
  | _ =>
    match andJoin d conds (buf.writeString "(") with
    | (some e, buf1) => (some e, buf1)
    | (none, buf1) => (none, buf1.writeString ")")

/-- A per-column SET value in an UPDATE: either a plain value bound as a
placeholder, or a raw fragment compiled as SQL text (the Go source's
`switch v := v.(type) { case raw: ... }`). -/
inductive SetVal (α : Type) where
  | lit (a : α)
  | rawv (r : Raw α)
  deriving Repr, DecidableEq

/-- `UpdateStmt` from update.go.  The Go `map[string]interface{}` value
mapping is embedded as an association list compiled in list order (the
spec notes the order is implementation-defined, single-pass).  The
runner/event-receiver/dialect embeds are external collaborators and are
passed explicitly where needed. -/
structure UpdateStmt (α : Type) where
  raw : Raw α
  Table : String
  Value : List (String × SetVal α)
  WhereCond : List (Cond α)
  LimitCount : Int
  deriving Repr, DecidableEq

/-- `Update(table)` from update.go: empty value map, `LimitCount = -1`. -/
def Update {α : Type} (table : String) : UpdateStmt α :=
  { raw := ⟨"", []⟩, Table := table, Value := [], WhereCond := [], LimitCount := -1 }

/-- Outcome of `UpdateStmt.Build`: a normal return (`ok` or a returned
error) or a Go `panic` (which unwinds instead of returning). -/
inductive UpdResult where
  | ok
  | err (e : DbrError)
  | panicked (msg : String)
  deriving Repr, DecidableEq

/-- Output of `UpdateStmt.Build`: the outcome together with the buffer
contents at the moment Build returned (or at the moment the panic was
raised). -/
structure UpdOut (α : Type) where
  result : UpdResult
  buf : Buffer α
  deriving Repr, DecidableEq

/-- The SET-clause loop of `UpdateStmt.Build` (update.go): comma-joins
`col = ?` pairs, except that a raw-fragment value is compiled by
`raw.Build` (whose returned error the Go source discards). -/
def updSetLoop {α : Type} (d : Dialect) : Nat → Buffer α →
    List (String × SetVal α) → Buffer α
  | _, buf, [] => buf
  | i, buf, (col, v) :: rest =>
    let buf1 := if 0 < i then buf.writeString ", " else buf
    let buf2 := (buf1.writeString (d.quoteIdent col)).writeString " = "
    let buf3 :=
      match v with
      | .rawv r => (rawBuild r d buf2).2
      | .lit a => (buf2.writeString placeholder).writeValue [a]
    updSetLoop d (i + 1) buf3 rest

/-- `UpdateStmt.Build` from update.go: raw override short-circuits;
validates Table and the value mapping; emits `UPDATE <table> SET ...`;
then, if the WhereCond list is empty, panics with `没有条件`, else emits
the WHERE clause via `And`; finally appends `LIMIT` when
`LimitCount >= 0`. -/
def updateBuild {α : Type} (u : UpdateStmt α) (d : Dialect) (buf : Buffer α) :
    UpdOut α :=
  if u.raw.Query ≠ "" then
    match rawBuild u.raw d buf with
    | (some e, buf1) => ⟨.err e, buf1⟩
    | (none, buf1) => ⟨.ok, buf1⟩
  else if u.Table = "" then ⟨.err .tableNotSpecified, buf⟩
  else if u.Value.isEmpty then ⟨.err .columnNotSpecified, buf⟩
  else
    let buf1 := ((buf.writeString "UPDATE ").writeString
      (d.quoteIdent u.Table)).writeString " SET "
    let buf2 := updSetLoop d 0 buf1 u.Value
    match u.WhereCond with
    | [] => ⟨.panicked "没有条件", buf2⟩
    | conds =>
      match andBuild d conds (buf2.writeString " WHERE ") with
      | (some e, buf3) => ⟨.err e, buf3⟩
      | (none, buf3) =>
        if 0 ≤ u.LimitCount then
          ⟨.ok, (buf3.writeString " LIMIT ").writeString (toString u.LimitCount)⟩
        else ⟨.ok, buf3⟩

/-- `InsertStmt` from insert.go.  `RecordID *int64` is embedded as a flag
recording whether the caller-owned identifier-output slot is bound; the
value written through the pointer is tracked by the execution loop. -/
structure InsertStmt (α : Type) where
  raw : Raw α
  Table : String
  Column : List String
  Value : List (List α)
  RunLen : Int
  ReturnColumn : List String
  RecordID : Bool
  deriving Repr, DecidableEq

/-- `InsertInto(table)` from insert.go. -/
def InsertInto {α : Type} (table : String) : InsertStmt α :=
  { raw := ⟨"", []⟩, Table := table, Column := [], Value := [],
    RunLen := 0, ReturnColumn := [], RecordID := false }

/-- `InsertBySql(query, value...)` from insert.go: the query and arguments
live in the raw override; the row list `Value` stays empty. -/
def InsertBySql {α : Type} (query : String) (value : List α) : InsertStmt α :=
  { raw := ⟨query, value⟩, Table := "", Column := [], Value := [],
    RunLen := 0, ReturnColumn := [], RecordID := false }

/-- Outcome of `InsertStmt.Build` (insert.go contains no panic). -/
inductive InsResult where
  | ok
  | err (e : DbrError)
  deriving Repr, DecidableEq

/-- Output of `InsertStmt.Build`: the outcome, the buffer, and the
statement as mutated by Build (`RunLen` defaulting and the destructive
truncation of `Value`). -/
structure InsOut (α : Type) where
  result : InsResult
  buf : Buffer α
  stmt : InsertStmt α
  deriving Repr, DecidableEq

/-- The column-list loop of `InsertStmt.Build`: writes the quoted column
names comma-joined into the buffer while accumulating the matching
placeholder group (without its closing parenthesis) in `pbuf`. -/
def insColumns {α : Type} (d : Dialect) : Nat → Buffer α → String →
    List String → Buffer α × String
  | _, buf, pbuf, [] => (buf, pbuf)
  | i, buf, pbuf, col :: rest =>
    let bp := if 0 < i then (buf.writeString ",", pbuf ++ ",") else (buf, pbuf)
    insColumns d (i + 1) (bp.1.writeString (d.quoteIdent col))
      (bp.2 ++ placeholder) rest

/-- The row loop of `InsertStmt.Build`: iterates the pending tuples with
their range index `i`, breaking as soon as `i >= RunLen`; for each emitted
row writes the placeholder group and appends the tuple's values; returns
the buffer and `runnum`, the number of rows emitted. -/
def insRows {α : Type} (phStr : String) (runLen : Int) : Nat → Buffer α →
    List (List α) → Buffer α × Nat
  | _, buf, [] => (buf, 0)
  | i, buf, tuple :: rest =>
    if (i : Int) ≥ runLen then (buf, 0)
    else
      let buf1 := if 0 < i then buf.writeString ", " else buf
      let buf2 := (buf1.writeString phStr).writeValue tuple
      let out := insRows phStr runLen (i + 1) buf2 rest
      (out.1, out.2 + 1)

/-- The RETURNING loop of `InsertStmt.Build`: comma-joined quoted columns. -/
def retCols {α : Type} (d : Dialect) : Nat → Buffer α → List String → Buffer α
  | _, buf, [] => buf
  | i, buf, col :: rest =>
    let buf1 := if 0 < i then buf.writeString "," else buf
    retCols d (i + 1) (buf1.writeString (d.quoteIdent col)) rest

/-- The RETURNING clause: written only when the column list is non-empty. -/
def insReturning {α : Type} (d : Dialect) (cols : List String) (buf : Buffer α) :
    Buffer α :=
  match cols with
  | [] => buf
  | _ => retCols d 0 (buf.writeString " RETURNING ") cols

/-- `InsertStmt.Build` from insert.go: defaults `RunLen` to `1000` when it
is zero (before the raw-override check); short-circuits to the raw
override; validates Table and Column; emits
`INSERT INTO <table> (<cols>) VALUES ` followed by up to `RunLen`
placeholder groups with their values; truncates the pending `Value` list
past the rows just emitted; appends the RETURNING clause. -/
def insertBuild {α : Type} (b : InsertStmt α) (d : Dialect) (buf : Buffer α) :
    InsOut α :=
  let b1 := if b.RunLen = 0 then { b with RunLen := 1000 } else b
  if b1.raw.Query ≠ "" then
    match rawBuild b1.raw d buf with
    | (some e, buf1) => ⟨.err e, buf1, b1⟩
    | (none, buf1) => ⟨.ok, buf1, b1⟩
  else if b1.Table = "" then ⟨.err .tableNotSpecified, buf, b1⟩
  else if b1.Column = [] then ⟨.err .columnNotSpecified, buf, b1⟩
  else
    let buf1 := ((buf.writeString "INSERT INTO ").writeString
      (d.quoteIdent b1.Table)).writeString " ("
    let cp := insColumns d 0 buf1 "(" b1.Column
    let buf2 := cp.1.writeString ") VALUES "
    let phStr := cp.2 ++ ")"
    let rr := insRows phStr b1.RunLen 0 buf2 b1.Value
    let b2 := { b1 with Value := b1.Value.drop rr.2 }
    ⟨.ok, insReturning d b2.ReturnColumn rr.1, b2⟩

/-- Modelled from the spec (§4.5): `getSQL` runs compilation against a
disposable fresh buffer and stringifies the result.  `InsertStmt.GetSQL`
from insert.go first takes a shallow copy (`b1 := *b`) of the statement,
so Build's mutations (the `RunLen` defaulting and the `Value` reslicing)
hit only the copy; the pair returned here is (text-or-error, the
statement as the caller still sees it afterwards), and the second
component is the untouched original. -/
def insertGetSQL {α : Type} (b : InsertStmt α) (d : Dialect) :
    (Except DbrError String) × InsertStmt α :=
  let copy := b
  let out := insertBuild copy d Buffer.empty
  (match out.result with
   | .ok => .ok out.buf.text
   | .err e => .error e,
   b)

/-- The `sql.Result` of one execution, as far as the loop inspects it:
`LastInsertId` either succeeds with an id or fails (`none`), plus the
affected-row count. -/
structure ExecResult where
  lastInsertId : Option Int
  rowsAffected : Int
  deriving Repr, DecidableEq

/-- Modelled from the spec (§6, Runner): the external execution
collaborator, a function from compiled (text, args) to a result or a
backend error. -/
def Runner (α : Type) : Type := String → List α → Except String ExecResult

/-- An error escaping `exec`: either a compile error from Build or a
runner/backend failure. -/
inductive ExecError where
  | build (e : DbrError)
  | runner (s : String)
  deriving Repr, DecidableEq

/-- Observable outcome of `InsertStmt.ExecContext`: the returned
`sql.Result` (`none` = Go `nil`), the returned error, the statement
state after the loop, the value last written through the `RecordID`
slot, the chunks actually sent to the runner in order, and whether the
bounded-fuel model ran out of fuel (the Go loop would still be running). -/
structure ExecOut (α : Type) where
  result : Option ExecResult
  error : Option ExecError
  stmt : InsertStmt α
  written : Option Int
  sent : List (String × List α)
  fuelOut : Bool
  deriving Repr, DecidableEq

/-- The loop of `InsertStmt.ExecContext` (insert.go): while pending rows
remain, compile a chunk into a fresh buffer (modelled from the spec for
`exec`: compile, then hand (text, args) to the runner), stop returning
`(nil, err)` on the first error, otherwise record the result, service the
`RecordID` slot (write `LastInsertId` when it succeeds, then clear the
slot unconditionally), and continue on the truncated statement.  `fuel`
bounds the iteration count so the model is total; `res`/`written` thread
the last result and the slot's written value. -/
def insertExecLoop {α : Type} (run : Runner α) (d : Dialect) :
    Nat → InsertStmt α → Option ExecResult → Option Int → ExecOut α
  | fuel, b, res, written =>
    if b.Value.isEmpty then ⟨res, none, b, written, [], false⟩
    else
      match fuel with
      | 0 => ⟨res, none, b, written, [], true⟩
      | fuel + 1 =>
        let out := insertBuild b d Buffer.empty
        match out.result with
        | .err e => ⟨none, some (.build e), out.stmt, written, [], false⟩
        | .ok =>
          match run out.buf.text out.buf.values with
          | .error s =>
            ⟨none, some (.runner s), out.stmt, written,
              [(out.buf.text, out.buf.values)], false⟩
          | .ok r =>
            let bw :=
              if out.stmt.RecordID then
                ({ out.stmt with RecordID := false },
                 match r.lastInsertId with
                 | some id => some id
                 | none => written)
              else (out.stmt, written)
            let rest := insertExecLoop run d fuel bw.1 (some r) bw.2
            { rest with sent := (out.buf.text, out.buf.values) :: rest.sent }

/-- `InsertStmt.ExecContext`: the loop started on the statement with no
result, no written id; `b.Value.length` is enough fuel whenever each
iteration consumes at least one row. -/
def insertExecContext {α : Type} (run : Runner α) (d : Dialect)
    (b : InsertStmt α) : ExecOut α :=
  insertExecLoop run d b.Value.length b none none

/-- The effective batch cap: `Build` replaces a zero `RunLen` by 1000. -/
def effCap (r : Int) : Int := if r = 0 then 1000 else r

/-- Number of `?` placeholder characters in a piece of SQL text. -/
def countQ (s : String) : Nat := s.data.count '?'

/-- Iterating `Build` (each call on a fresh buffer, as `exec`/`getSQL`
create buffers per compilation), keeping the statement state. -/
def insertBuildIter {α : Type} (d : Dialect) : Nat → InsertStmt α → InsertStmt α
  | 0, b => b
  | n + 1, b => insertBuildIter d n (insertBuild b d Buffer.empty).stmt

/-- The argument values compiled by the `(n+1)`-st call to `Build`
(0-indexed: call `n`). -/
def nthCallValues {α : Type} (d : Dialect) (b : InsertStmt α) (n : Nat) :
    List α :=
  (insertBuild (insertBuildIter d n b) d Buffer.empty).buf.values

/-- What the chunked execution loop guarantees relative to a runner `run`
and the result accumulator `res`: it terminates within its fuel; compile
errors cannot arise; a runner error stops the loop at that chunk (every
chunk sent before the last succeeded, the last one is the failing one,
and the returned result is `nil`); and an error-free finish means all
rows were consumed and the returned result is the last execution's
result (or the accumulator when nothing was sent). -/
def ExecSpec {α : Type} (run : Runner α) (res : Option ExecResult)
    (out : ExecOut α) : Prop :=
  out.fuelOut = false ∧
  (∀ e, out.error ≠ some (.build e)) ∧
  (∀ s, out.error = some (.runner s) →
    out.result = none ∧
    (∀ c ∈ out.sent.dropLast, ∃ r, run c.1 c.2 = Except.ok r) ∧
    (∃ last, out.sent.getLast? = some last ∧
      run last.1 last.2 = Except.error s)) ∧
  (out.error = none →
    out.stmt.Value = [] ∧
    (out.sent = [] → out.result = res) ∧
    (∀ last, out.sent.getLast? = some last →
      ∃ r, run last.1 last.2 = Except.ok r ∧ out.result = some r))

end Dbr

namespace Dbr

/-! ## Basic facts about buffers and placeholder counting -/

theorem countQ_append (s t : String) : countQ (s ++ t) = countQ s + countQ t := by
  simp [countQ, String.data_append, List.count_append]

theorem writeString_text {α : Type} (b : Buffer α) (s : String) :
    (b.writeString s).text = b.text ++ s := rfl

theorem writeString_values {α : Type} (b : Buffer α) (s : String) :
    (b.writeString s).values = b.values := rfl

theorem writeValue_text {α : Type} (b : Buffer α) (vs : List α) :
    (b.writeValue vs).text = b.text := rfl

theorem writeValue_values {α : Type} (b : Buffer α) (vs : List α) :
    (b.writeValue vs).values = b.values ++ vs := rfl

theorem countQ_placeholder : countQ placeholder = 1 := by decide

theorem countQ_commaSpace : countQ ", " = 0 := by decide

/-! ## Characterizing the row loop of `InsertStmt.Build` -/

/-- The row loop emits exactly `min ((runLen - i)⁺) rows.length` rows,
appends exactly their flattened values in order, and adds one copy of the
placeholder group's `?`-count per emitted row. -/
theorem insRows_spec {α : Type} (ph : String) (rl : Int) :
    ∀ (rows : List (List α)) (i : Nat) (buf : Buffer α),
    (insRows ph rl i buf rows).2 = min (rl - i).toNat rows.length ∧
    (insRows ph rl i buf rows).1.values =
      buf.values ++ (rows.take (min (rl - i).toNat rows.length)).flatten ∧
    countQ (insRows ph rl i buf rows).1.text =
      countQ buf.text + (min (rl - i).toNat rows.length) * countQ ph := by
  intro rows
  induction rows with
  | nil => intro i buf; simp [insRows]
  | cons tuple rest ih =>
    intro i buf
    by_cases hge : (i : Int) ≥ rl
    · have h0 : (rl - i).toNat = 0 := by omega
      simp [insRows, hge, h0]
    · have hm : (rl - (i : Int)).toNat = (rl - ((i : Nat) + 1 : Nat)).toNat + 1 := by
        push_cast
        omega
      have hmin : min (rl - i).toNat (tuple :: rest).length
          = min (rl - ((i : Nat) + 1 : Nat)).toNat rest.length + 1 := by
        rw [hm]
        simp [Nat.succ_min_succ]
      obtain ⟨ih1, ih2, ih3⟩ := ih (i + 1)
        ((if 0 < i then buf.writeString ", " else buf).writeString ph
          |>.writeValue tuple)
      constructor
      · simp only [insRows, hge, if_false]
        rw [ih1, hmin]
      constructor
      · simp only [insRows, hge, if_false]
        rw [ih2, hmin, List.take_succ_cons]
        by_cases hi : 0 < i <;>
          simp [hi, Buffer.writeString, Buffer.writeValue]
      · simp only [insRows, hge, if_false]
        rw [ih3, hmin]
        by_cases hi : 0 < i <;>
          simp [hi, Buffer.writeString, Buffer.writeValue, countQ_append,
            countQ_commaSpace] <;> ring

/-! ## Characterizing the column loop, RETURNING loop and `insertBuild` -/

theorem countQ_lparen : countQ "(" = 0 := by decide

theorem countQ_rparen : countQ ")" = 0 := by decide

theorem countQ_comma : countQ "," = 0 := by decide

/-- The column loop never appends argument values. -/
theorem insColumns_values {α : Type} (d : Dialect) :
    ∀ (cols : List String) (i : Nat) (buf : Buffer α) (pbuf : String),
    (insColumns d i buf pbuf cols).1.values = buf.values := by
  intro cols
  induction cols with
  | nil => intro i buf pbuf; simp [insColumns]
  | cons c rest ih =>
    intro i buf pbuf
    by_cases hi : 0 < i <;>
      simp [insColumns, hi, ih, Buffer.writeString]

/-- The placeholder group accumulated by the column loop gains exactly one
`?` per column. -/
theorem insColumns_snd_count {α : Type} (d : Dialect) :
    ∀ (cols : List String) (i : Nat) (buf : Buffer α) (pbuf : String),
    countQ (insColumns d i buf pbuf cols).2 = countQ pbuf + cols.length := by
  intro cols
  induction cols with
  | nil => intro i buf pbuf; simp [insColumns]
  | cons c rest ih =>
    intro i buf pbuf
    by_cases hi : 0 < i <;>
      simp [insColumns, hi, ih, countQ_append, countQ_comma,
        countQ_placeholder] <;> omega

/-- When no quoted column name contains a `?`, the column loop adds no
placeholder characters to the SQL text. -/
theorem insColumns_text_count {α : Type} (d : Dialect) :
    ∀ (cols : List String), (∀ c ∈ cols, countQ (d.quoteIdent c) = 0) →
    ∀ (i : Nat) (buf : Buffer α) (pbuf : String),
    countQ (insColumns d i buf pbuf cols).1.text = countQ buf.text := by
  intro cols
  induction cols with
  | nil => intro _ i buf pbuf; simp [insColumns]
  | cons c rest ih =>
    intro hq i buf pbuf
    have hc : countQ (d.quoteIdent c) = 0 := hq c (by simp)
    have hrest : ∀ x ∈ rest, countQ (d.quoteIdent x) = 0 := by
      intro x hx; exact hq x (by simp [hx])
    by_cases hi : 0 < i <;>
      simp [insColumns, hi, ih hrest, Buffer.writeString, countQ_append,
        hc, countQ_comma]

/-- The RETURNING loop never appends argument values. -/
theorem retCols_values {α : Type} (d : Dialect) :
    ∀ (cols : List String) (i : Nat) (buf : Buffer α),
    (retCols d i buf cols).values = buf.values := by
  intro cols
  induction cols with
  | nil => intro i buf; simp [retCols]
  | cons c rest ih =>
    intro i buf
    by_cases hi : 0 < i <;>
      simp [retCols, hi, ih, Buffer.writeString]

/-- When no quoted RETURNING column contains a `?`, the RETURNING loop adds
no placeholder characters. -/
theorem retCols_text_count {α : Type} (d : Dialect) :
    ∀ (cols : List String), (∀ c ∈ cols, countQ (d.quoteIdent c) = 0) →
    ∀ (i : Nat) (buf : Buffer α),
    countQ (retCols d i buf cols).text = countQ buf.text := by
  intro cols
  induction cols with
  | nil => intro _ i buf; simp [retCols]
  | cons c rest ih =>
    intro hq i buf
    have hc : countQ (d.quoteIdent c) = 0 := hq c (by simp)
    have hrest : ∀ x ∈ rest, countQ (d.quoteIdent x) = 0 := by
      intro x hx; exact hq x (by simp [hx])
    by_cases hi : 0 < i <;>
      simp [retCols, hi, ih hrest, Buffer.writeString, countQ_append,
        hc, countQ_comma]

theorem insReturning_values {α : Type} (d : Dialect) (cols : List String)
    (buf : Buffer α) : (insReturning d cols buf).values = buf.values := by
  cases cols with
  | nil => rfl
  | cons c rest => simp [insReturning, retCols_values, Buffer.writeString]

theorem insReturning_text_count {α : Type} (d : Dialect) (cols : List String)
    (hq : ∀ c ∈ cols, countQ (d.quoteIdent c) = 0) (buf : Buffer α) :
    countQ (insReturning d cols buf).text = countQ buf.text := by
  cases cols with
  | nil => rfl
  | cons c rest =>
    simp only [insReturning]
    rw [retCols_text_count d _ hq]
    simp [Buffer.writeString, countQ_append]
    decide

/-- `Build`'s `RunLen` defaulting step, phrased through `effCap`. -/
theorem runLen_default {α : Type} (b : InsertStmt α) :
    (if b.RunLen = 0 then { b with RunLen := 1000 } else b)
      = { b with RunLen := effCap b.RunLen } := by
  unfold effCap
  split <;> simp_all

/-- Characterization of `InsertStmt.Build` on a valid statement (no raw
override, non-empty table and columns): it succeeds, appends exactly the
flattened values of the first `min (effCap RunLen) |Value|` pending rows,
and truncates `Value` past exactly those rows while normalizing `RunLen`. -/
theorem insertBuild_valid {α : Type} (b : InsertStmt α) (d : Dialect)
    (buf : Buffer α) (hraw : b.raw.Query = "") (ht : ¬ b.Table = "")
    (hc : ¬ b.Column = []) :
    (insertBuild b d buf).result = .ok ∧
    (insertBuild b d buf).buf.values =
      buf.values ++
        (b.Value.take (min (effCap b.RunLen).toNat b.Value.length)).flatten ∧
    (insertBuild b d buf).stmt =
      { b with RunLen := effCap b.RunLen,
               Value := b.Value.drop
                 (min (effCap b.RunLen).toNat b.Value.length) } := by
  simp only [insertBuild, runLen_default b, hraw, ht, hc, ne_eq,
    not_false_iff, not_true, if_false, if_neg]
  set buf1 := ((buf.writeString "INSERT INTO ").writeString
    (d.quoteIdent b.Table)).writeString " (" with hb1
  set cp := insColumns d 0 buf1 "(" b.Column with hcp
  set phS := cp.2 ++ ")" with hph
  set bufV := cp.1.writeString ") VALUES " with hbv
  set rr := insRows phS (effCap b.RunLen) 0 bufV b.Value with hrr
  obtain ⟨hn, hv, -⟩ := insRows_spec phS (effCap b.RunLen) b.Value 0 bufV
  simp only [Nat.cast_zero, sub_zero] at hn hv
  rw [← hrr] at hn hv
  have hvals : bufV.values = buf.values := by
    rw [hbv, writeString_values, hcp, insColumns_values, hb1,
      writeString_values, writeString_values, writeString_values]
  refine ⟨trivial, ?_, ?_⟩
  · rw [insReturning_values, hv, hvals]
  · rw [hn]

/-- Placeholder count of `InsertStmt.Build` on a valid statement: when the
quoting of the table, the columns and the RETURNING columns introduces no
`?` characters, the compile adds exactly
`|Column| * (rows compiled this call)` placeholder tokens. -/
theorem insertBuild_count {α : Type} (b : InsertStmt α) (d : Dialect)
    (buf : Buffer α) (hraw : b.raw.Query = "") (ht : ¬ b.Table = "")
    (hc : ¬ b.Column = []) (hqt : countQ (d.quoteIdent b.Table) = 0)
    (hqc : ∀ c ∈ b.Column, countQ (d.quoteIdent c) = 0)
    (hqr : ∀ c ∈ b.ReturnColumn, countQ (d.quoteIdent c) = 0) :
    countQ (insertBuild b d buf).buf.text =
      countQ buf.text +
        b.Column.length * min (effCap b.RunLen).toNat b.Value.length := by
  simp only [insertBuild, runLen_default b, hraw, ht, hc, ne_eq,
    not_false_iff, not_true, if_false, if_neg]
  set buf1 := ((buf.writeString "INSERT INTO ").writeString
    (d.quoteIdent b.Table)).writeString " (" with hb1
  set cp := insColumns d 0 buf1 "(" b.Column with hcp
  set phS := cp.2 ++ ")" with hph
  set bufV := cp.1.writeString ") VALUES " with hbv
  set rr := insRows phS (effCap b.RunLen) 0 bufV b.Value with hrr
  obtain ⟨-, -, hq⟩ := insRows_spec phS (effCap b.RunLen) b.Value 0 bufV
  simp only [Nat.cast_zero, sub_zero] at hq
  rw [← hrr] at hq
  have hphc : countQ phS = b.Column.length := by
    rw [hph, countQ_append, hcp, insColumns_snd_count, countQ_lparen,
      countQ_rparen]
    omega
  have hb1c : countQ buf1.text = countQ buf.text := by
    rw [hb1, writeString_text, writeString_text, writeString_text,
      countQ_append, countQ_append, countQ_append, hqt]
    have h1 : countQ "INSERT INTO " = 0 := by decide
    have h2 : countQ " (" = 0 := by decide
    omega
  have hbvc : countQ bufV.text = countQ buf.text := by
    rw [hbv, writeString_text, countQ_append, hcp,
      insColumns_text_count d b.Column hqc, hb1c]
    have h3 : countQ ") VALUES " = 0 := by decide
    omega
  rw [insReturning_text_count d b.ReturnColumn hqr, hq, hbvc, hphc,
    Nat.mul_comm]

/-! ## Error branches of `insertBuild`, branches of `updateBuild` -/

theorem insertBuild_tableEmpty {α : Type} (b : InsertStmt α) (d : Dialect)
    (buf : Buffer α) (hraw : b.raw.Query = "") (h : b.Table = "") :
    insertBuild b d buf =
      ⟨.err .tableNotSpecified, buf, { b with RunLen := effCap b.RunLen }⟩ := by
  simp only [insertBuild, runLen_default b]
  simp [hraw, h]

theorem insertBuild_colEmpty {α : Type} (b : InsertStmt α) (d : Dialect)
    (buf : Buffer α) (hraw : b.raw.Query = "") (ht : ¬ b.Table = "")
    (hc : b.Column = []) :
    insertBuild b d buf =
      ⟨.err .columnNotSpecified, buf, { b with RunLen := effCap b.RunLen }⟩ := by
  simp only [insertBuild, runLen_default b]
  simp [hraw, ht, hc]

theorem andJoin_none {α : Type} (d : Dialect) :
    ∀ (conds : List (Cond α)) (buf : Buffer α), (andJoin d conds buf).1 = none := by
  intro conds
  induction conds with
  | nil => intro buf; simp [andJoin]
  | cons c rest ih =>
    intro buf
    cases c with
    | expr t args =>
      cases rest with
      | nil => simp [andJoin, condBuild]
      | cons c2 r2 =>
        show (andJoin d (c2 :: r2)
          (((buf.writeString t).writeValue args).writeString " AND ")).1 = none
        exact ih _

theorem andBuild_none {α : Type} (d : Dialect) (conds : List (Cond α))
    (buf : Buffer α) : (andBuild d conds buf).1 = none := by
  match conds with
  | [] => simp [andBuild]
  | [c] => cases c with | expr t args => simp [andBuild, condBuild]
  | c1 :: c2 :: rest =>
    have h := andJoin_none d (c1 :: c2 :: rest) (buf.writeString "(")
    rcases hj : andJoin d (c1 :: c2 :: rest) (buf.writeString "(") with ⟨o, bf⟩
    rw [hj] at h
    simp at h
    subst h
    simp [andBuild, hj]

theorem updateBuild_tableEmpty {α : Type} (u : UpdateStmt α) (d : Dialect)
    (buf : Buffer α) (hraw : u.raw.Query = "") (h : u.Table = "") :
    updateBuild u d buf = ⟨.err .tableNotSpecified, buf⟩ := by
  simp [updateBuild, hraw, h]

theorem updateBuild_valEmpty {α : Type} (u : UpdateStmt α) (d : Dialect)
    (buf : Buffer α) (hraw : u.raw.Query = "") (ht : ¬ u.Table = "")
    (hv : u.Value = []) :
    updateBuild u d buf = ⟨.err .columnNotSpecified, buf⟩ := by
  simp [updateBuild, hraw, ht, hv]

/-- The SET-clause loop only ever appends to the buffer. -/
theorem updSetLoop_extends {α : Type} (d : Dialect) :
    ∀ (vals : List (String × SetVal α)) (i : Nat) (buf : Buffer α),
    ∃ t vs, (updSetLoop d i buf vals).text = buf.text ++ t ∧
      (updSetLoop d i buf vals).values = buf.values ++ vs := by
  intro vals
  induction vals with
  | nil => intro i buf; exact ⟨"", [], by simp [updSetLoop], by simp [updSetLoop]⟩
  | cons p rest ih =>
    intro i buf
    obtain ⟨col, v⟩ := p
    cases v with
    | rawv r =>
      obtain ⟨t1, vs1, ht1, hv1⟩ := ih (i + 1)
        ((rawBuild r d (((if 0 < i then buf.writeString ", " else buf
          ).writeString (d.quoteIdent col)).writeString " = ")).2)
      refine ⟨(if 0 < i then ", " else "") ++ d.quoteIdent col ++ " = "
          ++ r.Query ++ t1, r.Value ++ vs1, ?_, ?_⟩
      · simp only [updSetLoop]
        rw [ht1]
        by_cases hi : 0 < i <;>
          simp [hi, rawBuild, Buffer.writeString, Buffer.writeValue,
            String.append_assoc]
      · simp only [updSetLoop]
        rw [hv1]
        by_cases hi : 0 < i <;>
          simp [hi, rawBuild, Buffer.writeString, Buffer.writeValue]
    | lit a =>
      obtain ⟨t1, vs1, ht1, hv1⟩ := ih (i + 1)
        (((((if 0 < i then buf.writeString ", " else buf
          ).writeString (d.quoteIdent col)).writeString " = "
          ).writeString placeholder).writeValue [a])
      refine ⟨(if 0 < i then ", " else "") ++ d.quoteIdent col ++ " = "
          ++ placeholder ++ t1, a :: vs1, ?_, ?_⟩
      · simp only [updSetLoop]
        rw [ht1]
        by_cases hi : 0 < i <;>
          simp [hi, Buffer.writeString, Buffer.writeValue,
            String.append_assoc]
      · simp only [updSetLoop]
        rw [hv1]
        by_cases hi : 0 < i <;>
          simp [hi, Buffer.writeString, Buffer.writeValue]

/-- `UpdateStmt.Build` with no raw override, a table, a non-empty value
mapping and an empty condition list does not return: it panics with
`没有条件`, and the buffer at that moment already holds the emitted
`UPDATE <table> SET ...` text. -/
theorem updateBuild_noWhere {α : Type} (u : UpdateStmt α) (d : Dialect)
    (buf : Buffer α) (hraw : u.raw.Query = "") (ht : ¬ u.Table = "")
    (hv : ¬ u.Value = []) (hw : u.WhereCond = []) :
    (updateBuild u d buf).result = .panicked "没有条件" ∧
    ∃ rest, (updateBuild u d buf).buf.text =
      buf.text ++ "UPDATE " ++ d.quoteIdent u.Table ++ " SET " ++ rest := by
  obtain ⟨t1, vs1, ht1, hv1⟩ := updSetLoop_extends d u.Value 0
    (((buf.writeString "UPDATE ").writeString
      (d.quoteIdent u.Table)).writeString " SET ")
  have hne : u.Value.isEmpty = false := by
    cases hval : u.Value with
    | nil => exact absurd hval hv
    | cons a l => rfl
  simp only [updateBuild, hraw, ht, hne, hw, ne_eq, not_true, not_false_iff,
    if_false, if_neg, Bool.false_eq_true, ite_false]
  refine ⟨trivial, t1, ?_⟩
  rw [ht1, writeString_text, writeString_text, writeString_text]

/-- `UpdateStmt.Build` with no raw override, a table, a non-empty value
mapping and a non-empty condition list returns normally with no error. -/
theorem updateBuild_ok {α : Type} (u : UpdateStmt α) (d : Dialect)
    (buf : Buffer α) (hraw : u.raw.Query = "") (ht : ¬ u.Table = "")
    (hv : ¬ u.Value = []) (hw : ¬ u.WhereCond = []) :
    (updateBuild u d buf).result = .ok := by
  have hne : u.Value.isEmpty = false := by
    cases hval : u.Value with
    | nil => exact absurd hval hv
    | cons a l => rfl
  cases hwc : u.WhereCond with
  | nil => exact absurd hwc hw
  | cons c cs =>
    have hn := andBuild_none d (c :: cs)
      ((updSetLoop d 0 (((buf.writeString "UPDATE ").writeString
        (d.quoteIdent u.Table)).writeString " SET ") u.Value).writeString
        " WHERE ")
    rcases hab : andBuild d (c :: cs)
      ((updSetLoop d 0 (((buf.writeString "UPDATE ").writeString
        (d.quoteIdent u.Table)).writeString " SET ") u.Value).writeString
        " WHERE ") with ⟨o, bf⟩
    rw [hab] at hn
    simp at hn
    subst hn
    simp only [updateBuild, hraw, ht, hne, hwc, ne_eq, not_true,
      not_false_iff, if_false, if_neg, Bool.false_eq_true, ite_false, hab]
    split <;> rfl

/-! ## The chunked execution loop -/

/-- With no pending rows the loop exits immediately: no execution, no
error, the accumulated result. -/
theorem insertExecLoop_empty {α : Type} (run : Runner α) (d : Dialect)
    (fuel : Nat) (b : InsertStmt α) (res : Option ExecResult)
    (written : Option Int) (h : b.Value = []) :
    insertExecLoop run d fuel b res written =
      ⟨res, none, b, written, [], false⟩ := by
  rw [insertExecLoop.eq_def]
  simp [h]

theorem execSpec_base {α : Type} (run : Runner α) (res : Option ExecResult)
    (b : InsertStmt α) (written : Option Int) (h : b.Value = []) :
    ExecSpec run res (⟨res, none, b, written, [], false⟩ : ExecOut α) := by
  refine ⟨rfl, by simp, by simp, ?_⟩
  intro _
  exact ⟨h, fun _ => rfl, by simp⟩

theorem effCap_pos {α : Type} (b : InsertStmt α) (h : 0 ≤ b.RunLen) :
    1 ≤ (effCap b.RunLen).toNat := by
  unfold effCap
  split <;> omega

/-- Prefixing a successfully executed chunk onto a loop tail that
satisfies the loop contract (with that chunk's result as accumulator)
preserves the loop contract. -/
theorem execSpec_step {α : Type} (run : Runner α) (res : Option ExecResult)
    (q : String) (vs : List α) (r : ExecResult) (rec : ExecOut α)
    (hq : run q vs = Except.ok r) (hspec : ExecSpec run (some r) rec) :
    ExecSpec run res { rec with sent := (q, vs) :: rec.sent } := by
  obtain ⟨h1, h2, h3, h4⟩ := hspec
  refine ⟨h1, h2, ?_, ?_⟩
  · intro s hs
    obtain ⟨hr1, hr2, last, hl1, hl2⟩ := h3 s hs
    refine ⟨hr1, ?_, last, ?_, hl2⟩
    · cases hrs : rec.sent with
      | nil => rw [hrs] at hl1; simp at hl1
      | cons y ys =>
        intro c hcmem
        have hcm2 : c ∈ ((q, vs) :: y :: ys).dropLast := hcmem
        rw [List.dropLast_cons₂] at hcm2
        rcases List.mem_cons.mp hcm2 with hceq | hcmem3
        · exact ⟨r, hceq ▸ hq⟩
        · exact hr2 c (by rw [hrs]; exact hcmem3)
    · cases hrs : rec.sent with
      | nil => rw [hrs] at hl1; simp at hl1
      | cons y ys =>
        show ((q, vs) :: y :: ys).getLast? = some last
        rw [List.getLast?_cons_cons]
        rw [hrs] at hl1
        exact hl1
  · intro hnone
    obtain ⟨hv1, hv2, hv3⟩ := h4 hnone
    refine ⟨hv1, ?_, ?_⟩
    · intro h
      have h2c : (q, vs) :: rec.sent = [] := h
      simp at h2c
    · intro last hl
      cases hrs : rec.sent with
      | nil =>
        have hl' : ((q, vs) :: ([] : List (String × List α))).getLast? = some last := by
          rw [← hrs]; exact hl
        have hlast : (q, vs) = last := by
          have hsome : some (q, vs) = some last := hl'
          exact Option.some.inj hsome
        subst hlast
        exact ⟨r, hq, hv2 hrs⟩
      | cons y ys =>
        have hl' : ((q, vs) :: y :: ys).getLast? = some last := by
          rw [← hrs]; exact hl
        rw [List.getLast?_cons_cons] at hl'
        rw [← hrs] at hl'
        exact hv3 last hl'

/-- The chunked execution loop on a valid statement: it terminates within
`|Value|` fuel, never surfaces a compile error, halts at the first failing
chunk returning its error and a nil result (all chunks sent before it
succeeded), and on an error-free run consumes all rows and returns the
last execution's result. -/
theorem insertExecLoop_spec {α : Type} (run : Runner α) (d : Dialect) :
    ∀ (fuel : Nat) (b : InsertStmt α) (res : Option ExecResult)
      (written : Option Int),
    b.raw.Query = "" → ¬ b.Table = "" → ¬ b.Column = [] → 0 ≤ b.RunLen →
    b.Value.length ≤ fuel →
    ExecSpec run res (insertExecLoop run d fuel b res written) := by
  intro fuel
  induction fuel with
  | zero =>
    intro b res written hraw ht hc hrl hlen
    have hemp : b.Value = [] := by
      cases hv : b.Value with
      | nil => rfl
      | cons x xs => rw [hv] at hlen; simp at hlen
    rw [insertExecLoop_empty run d 0 b res written hemp]
    exact execSpec_base run res b written hemp
  | succ fuel ih =>
    intro b res written hraw ht hc hrl hlen
    by_cases hemp : b.Value = []
    · rw [insertExecLoop_empty run d _ b res written hemp]
      exact execSpec_base run res b written hemp
    · obtain ⟨hres, hvals, hstmt⟩ := insertBuild_valid b d Buffer.empty hraw ht hc
      have hie : b.Value.isEmpty = false := by
        cases hv : b.Value with
        | nil => exact absurd hv hemp
        | cons x xs => rfl
      have hn1 : 1 ≤ (effCap b.RunLen).toNat ⊓ b.Value.length := by
        have h1 := effCap_pos b hrl
        have h2 : 1 ≤ b.Value.length := by
          cases hv : b.Value with
          | nil => exact absurd hv hemp
          | cons x xs => simp
        omega
      rw [insertExecLoop.eq_def]
      simp only [hie, Bool.false_eq_true, if_false, hres]
      cases hr : run (insertBuild b d Buffer.empty).buf.text
          (insertBuild b d Buffer.empty).buf.values with
      | error s =>
        simp only [hr]
        refine ⟨rfl, by simp, ?_, by simp⟩
        intro s' hs'
        have hs2 : some (ExecError.runner s) = some (ExecError.runner s') := hs'
        have hss : s = s' := by
          injection hs2 with h
          injection h
        subst hss
        exact ⟨rfl, by simp, ((insertBuild b d Buffer.empty).buf.text,
          (insertBuild b d Buffer.empty).buf.values), by simp, hr⟩
      | ok r =>
        simp only [hr]
        refine execSpec_step run res _ _ r _ hr (ih _ (some r) _ ?_ ?_ ?_ ?_ ?_)
        · split <;> simp [hstmt, hraw]
        · split <;> simp [hstmt, ht]
        · split <;> simp [hstmt, hc]
        · split <;> (simp [hstmt]; unfold effCap; split <;> omega)
        · split <;> (simp [hstmt]; omega)

/-- `Build` never touches the bound identifier-output slot. -/
theorem insertBuild_stmt_RecordID {α : Type} (b : InsertStmt α) (d : Dialect)
    (buf : Buffer α) :
    (insertBuild b d buf).stmt.RecordID = b.RecordID := by
  simp only [insertBuild, runLen_default b, rawBuild]
  split
  · rfl
  · split
    · rfl
    · split <;> rfl

/-- Once the identifier-output slot is clear, the rest of the loop neither
writes through it nor re-binds it. -/
theorem insertExecLoop_frozen {α : Type} (run : Runner α) (d : Dialect) :
    ∀ (fuel : Nat) (b : InsertStmt α) (res : Option ExecResult)
      (written : Option Int), b.RecordID = false →
    (insertExecLoop run d fuel b res written).written = written ∧
    (insertExecLoop run d fuel b res written).stmt.RecordID = false := by
  intro fuel
  induction fuel with
  | zero =>
    intro b res written hrid
    rw [insertExecLoop.eq_def]
    by_cases hie : b.Value.isEmpty
    · simp only [hie, if_true]
      exact ⟨trivial, hrid⟩
    · simp only [Bool.not_eq_true] at hie
      simp only [hie, Bool.false_eq_true, if_false]
      exact ⟨trivial, hrid⟩
  | succ fuel ih =>
    intro b res written hrid
    rw [insertExecLoop.eq_def]
    by_cases hie : b.Value.isEmpty
    · simp only [hie, if_true]
      exact ⟨trivial, hrid⟩
    · simp only [Bool.not_eq_true] at hie
      simp only [hie, Bool.false_eq_true, if_false]
      cases hbr : (insertBuild b d Buffer.empty).result with
      | err e =>
        simp only [hbr]
        exact ⟨trivial, by rw [insertBuild_stmt_RecordID]; exact hrid⟩
      | ok =>
        simp only [hbr]
        cases hr : run (insertBuild b d Buffer.empty).buf.text
            (insertBuild b d Buffer.empty).buf.values with
        | error s =>
          simp only [hr]
          exact ⟨trivial, by rw [insertBuild_stmt_RecordID]; exact hrid⟩
        | ok r =>
          simp only [hr]
          have hrid2 : (insertBuild b d Buffer.empty).stmt.RecordID = false := by
            rw [insertBuild_stmt_RecordID]; exact hrid
          simp only [hrid2, Bool.false_eq_true, if_false]
          exact ih _ (some r) written hrid2

/-! ## Iterating `Build` -/

theorem take_min_len {α : Type} (l : List α) (k : Nat) :
    l.take (min k l.length) = l.take k := by
  by_cases h : k ≤ l.length
  · rw [Nat.min_eq_left h]
  · rw [Nat.min_eq_right (by omega), List.take_length,
      List.take_of_length_le (by omega)]

theorem drop_min_len {α : Type} (l : List α) (k : Nat) :
    l.drop (min k l.length) = l.drop k := by
  by_cases h : k ≤ l.length
  · rw [Nat.min_eq_left h]
  · rw [Nat.min_eq_right (by omega), List.drop_length,
      List.drop_eq_nil_of_le (by omega)]

theorem effCap_idem (r : Int) : effCap (effCap r) = effCap r := by
  unfold effCap
  by_cases h : r = 0 <;> simp [h]

/-- After `n + 1` compile calls (each on a fresh buffer) the statement has
its `RunLen` normalized and its pending rows advanced past the first
`(n + 1) * cap` rows of the original input. -/
theorem insertBuildIter_stmt {α : Type} (d : Dialect) :
    ∀ (n : Nat) (b : InsertStmt α), b.raw.Query = "" → ¬ b.Table = "" →
    ¬ b.Column = [] →
    insertBuildIter d (n + 1) b =
      { b with RunLen := effCap b.RunLen,
               Value := b.Value.drop ((n + 1) * (effCap b.RunLen).toNat) } := by
  intro n
  induction n with
  | zero =>
    intro b hraw ht hc
    obtain ⟨-, -, hstmt⟩ := insertBuild_valid b d Buffer.empty hraw ht hc
    show (insertBuild b d Buffer.empty).stmt = _
    rw [hstmt, drop_min_len]
    norm_num
  | succ n ih =>
    intro b hraw ht hc
    obtain ⟨-, -, hstmt⟩ := insertBuild_valid b d Buffer.empty hraw ht hc
    show insertBuildIter d (n + 1) (insertBuild b d Buffer.empty).stmt = _
    have ihb := ih (insertBuild b d Buffer.empty).stmt
      (by rw [hstmt]; exact hraw) (by rw [hstmt]; exact ht)
      (by rw [hstmt]; exact hc)
    rw [ihb, hstmt]
    simp only [effCap_idem, drop_min_len, List.drop_drop]
    have harith : (effCap b.RunLen).toNat + (n + 1) * (effCap b.RunLen).toNat
        = (n + 1 + 1) * (effCap b.RunLen).toNat := by ring
    rw [harith]

/-! ## Remaining helper lemmas -/

theorem flatten_length_const {α : Type} (K : Nat) :
    ∀ (l : List (List α)), (∀ r ∈ l, r.length = K) →
    l.flatten.length = K * l.length := by
  intro l
  induction l with
  | nil => intro _; simp
  | cons r rest ih =>
    intro h
    have hr : r.length = K := h r (by simp)
    have hrest : ∀ x ∈ rest, x.length = K := fun x hx => h x (by simp [hx])
    simp only [List.flatten_cons, List.length_append, List.length_cons,
      ih hrest, hr]
    ring

/-- `Build` leaves `RunLen` at the effective cap on every branch. -/
theorem insertBuild_stmt_RunLen {α : Type} (b : InsertStmt α) (d : Dialect)
    (buf : Buffer α) :
    (insertBuild b d buf).stmt.RunLen = effCap b.RunLen := by
  simp only [insertBuild, runLen_default b, rawBuild]
  split
  · rfl
  · split
    · rfl
    · split <;> rfl

/-- The SET-clause loop distributes over list append (with the index
advanced by the length of the first part). -/
theorem updSetLoop_append {α : Type} (d : Dialect) :
    ∀ (l1 l2 : List (String × SetVal α)) (i : Nat) (buf : Buffer α),
    updSetLoop d i buf (l1 ++ l2) =
      updSetLoop d (i + l1.length) (updSetLoop d i buf l1) l2 := by
  intro l1
  induction l1 with
  | nil => intro l2 i buf; simp [updSetLoop]
  | cons p rest ih =>
    intro l2 i buf
    obtain ⟨col, v⟩ := p
    simp only [List.cons_append, updSetLoop]
    rw [List.append_eq, ih]
    have h : i + 1 + rest.length = i + (rest.length + 1) := by omega
    rw [h, List.length_cons]

/-- `And`-joining conditions only ever appends to the buffer. -/
theorem andJoin_extends {α : Type} (d : Dialect) :
    ∀ (conds : List (Cond α)) (buf : Buffer α),
    ∃ t vs, (andJoin d conds buf).2.text = buf.text ++ t ∧
      (andJoin d conds buf).2.values = buf.values ++ vs := by
  intro conds
  induction conds with
  | nil => intro buf; exact ⟨"", [], by simp [andJoin], by simp [andJoin]⟩
  | cons c rest ih =>
    intro buf
    cases c with
    | expr t0 args0 =>
      cases rest with
      | nil =>
        exact ⟨t0, args0, by simp [andJoin, condBuild, Buffer.writeString,
          Buffer.writeValue], by simp [andJoin, condBuild, Buffer.writeString,
          Buffer.writeValue]⟩
      | cons c2 r2 =>
        obtain ⟨t1, vs1, ht1, hv1⟩ := ih
          ((((buf.writeString t0).writeValue args0).writeString " AND "))
        refine ⟨t0 ++ " AND " ++ t1, args0 ++ vs1, ?_, ?_⟩
        · show (andJoin d (c2 :: r2)
            (((buf.writeString t0).writeValue args0).writeString " AND ")).2.text = _
          rw [ht1]
          simp [Buffer.writeString, Buffer.writeValue, String.append_assoc]
        · show (andJoin d (c2 :: r2)
            (((buf.writeString t0).writeValue args0).writeString " AND ")).2.values = _
          rw [hv1]
          simp [Buffer.writeString, Buffer.writeValue]

/-- `And(...).Build` only ever appends to the buffer. -/
theorem andBuild_extends {α : Type} (d : Dialect) (conds : List (Cond α))
    (buf : Buffer α) :
    ∃ t vs, (andBuild d conds buf).2.text = buf.text ++ t ∧
      (andBuild d conds buf).2.values = buf.values ++ vs := by
  match conds with
  | [] => exact ⟨"", [], by simp [andBuild], by simp [andBuild]⟩
  | [c] =>
    cases c with
    | expr t0 args0 =>
      exact ⟨t0, args0, by simp [andBuild, condBuild, Buffer.writeString,
        Buffer.writeValue], by simp [andBuild, condBuild, Buffer.writeString,
        Buffer.writeValue]⟩
  | c1 :: c2 :: rest =>
    obtain ⟨t1, vs1, ht1, hv1⟩ := andJoin_extends d (c1 :: c2 :: rest)
      (buf.writeString "(")
    have hn := andJoin_none d (c1 :: c2 :: rest) (buf.writeString "(")
    rcases hj : andJoin d (c1 :: c2 :: rest) (buf.writeString "(") with ⟨o, bf⟩
    rw [hj] at hn hv1 ht1
    simp only at hn
    subst hn
    refine ⟨"(" ++ t1 ++ ")", vs1, ?_, ?_⟩
    · show (andBuild d (c1 :: c2 :: rest) buf).2.text = _
      simp only [andBuild, hj]
      simp only at ht1
      simp [Buffer.writeString, ht1, String.append_assoc]
    · show (andBuild d (c1 :: c2 :: rest) buf).2.values = _
      simp only [andBuild, hj]
      simp only at hv1
      simp [Buffer.writeString, hv1]

/-! ## Claim theorems -/

/-- C1 (counterexample): on a concrete UPDATE with a table, one SET value,
no raw override and an empty WhereCond list, `Build` does not return a
"missing condition" error value at all — the compile ends in a
process-terminating panic (`没有条件`) — and the buffer at that moment
already holds emitted UPDATE text, contrary to the claim that no SQL text
is produced.  (Statement fields: raw, Table, Value, WhereCond,
LimitCount.) -/
theorem C1_counterexample :
    (updateBuild (⟨⟨"", []⟩, "users", [("age", SetVal.lit (5 : Nat))], [],
        -1⟩ : UpdateStmt Nat) ⟨fun s => s⟩ Buffer.empty).result
      = UpdResult.panicked "没有条件" ∧
    (∀ e, (updateBuild (⟨⟨"", []⟩, "users", [("age", SetVal.lit (5 : Nat))],
        [], -1⟩ : UpdateStmt Nat) ⟨fun s => s⟩ Buffer.empty).result
      ≠ UpdResult.err e) ∧
    (updateBuild (⟨⟨"", []⟩, "users", [("age", SetVal.lit (5 : Nat))], [],
        -1⟩ : UpdateStmt Nat) ⟨fun s => s⟩ Buffer.empty).buf.text
      = "UPDATE users SET age = ?" := by
  refine ⟨rfl, ?_, rfl⟩
  intro e he
  exact UpdResult.noConfusion he

/-- C1 (amended): for every UpdateStmt with no raw override, a non-empty
table, a non-empty value mapping and an empty WhereCond list, `Build`
does not return a "missing condition" error: it aborts in a
process-terminating panic (`没有条件`), and at that moment the buffer
already contains the emitted `UPDATE <table> SET ...` text. -/
theorem C1_update_missing_where_panics {α : Type} (u : UpdateStmt α)
    (d : Dialect) (buf : Buffer α) (hraw : u.raw.Query = "")
    (ht : ¬ u.Table = "") (hv : ¬ u.Value = []) (hw : u.WhereCond = []) :
    (updateBuild u d buf).result = UpdResult.panicked "没有条件" ∧
    (∀ e, (updateBuild u d buf).result ≠ UpdResult.err e) ∧
    ∃ rest, (updateBuild u d buf).buf.text =
      buf.text ++ "UPDATE " ++ d.quoteIdent u.Table ++ " SET " ++ rest := by
  obtain ⟨h1, h2⟩ := updateBuild_noWhere u d buf hraw ht hv hw
  refine ⟨h1, ?_, h2⟩
  intro e he
  rw [h1] at he
  exact UpdResult.noConfusion he

/-- C1 (witness): the amended claim evaluated at a concrete statement. -/
theorem C1_witness :
    (updateBuild (⟨⟨"", []⟩, "t", [("a", SetVal.lit (1 : Nat))], [],
        -1⟩ : UpdateStmt Nat) ⟨fun s => s⟩ Buffer.empty).result
      = UpdResult.panicked "没有条件" ∧
    (∀ e, (updateBuild (⟨⟨"", []⟩, "t", [("a", SetVal.lit (1 : Nat))], [],
        -1⟩ : UpdateStmt Nat) ⟨fun s => s⟩ Buffer.empty).result
      ≠ UpdResult.err e) ∧
    (∃ rest, (updateBuild (⟨⟨"", []⟩, "t", [("a", SetVal.lit (1 : Nat))], [],
        -1⟩ : UpdateStmt Nat) ⟨fun s => s⟩ Buffer.empty).buf.text
      = "" ++ "UPDATE " ++ "t" ++ " SET " ++ rest) :=
  C1_update_missing_where_panics _ _ _ rfl (by decide) (by decide) rfl

/-- C8: when `RunLen` is unset (zero), `Build` installs the default batch
cap of 1000 on the statement, and on a valid statement one compile call
emits exactly the first `min 1000 |Value|` rows (`take 1000`) and advances
the pending rows past them (`drop 1000`). -/
theorem C8_default_cap {α : Type} (b : InsertStmt α) (d : Dialect)
    (buf : Buffer α) (h0 : b.RunLen = 0) :
    (insertBuild b d buf).stmt.RunLen = 1000 ∧
    (b.raw.Query = "" → ¬ b.Table = "" → ¬ b.Column = [] →
      (insertBuild b d buf).buf.values =
        buf.values ++ (b.Value.take 1000).flatten ∧
      (insertBuild b d buf).stmt.Value = b.Value.drop 1000) := by
  have hcap : effCap b.RunLen = 1000 := by rw [h0]; rfl
  have ht1000 : (effCap b.RunLen).toNat = 1000 := by rw [hcap]; rfl
  constructor
  · rw [insertBuild_stmt_RunLen, hcap]
  · intro hraw ht hc
    obtain ⟨-, hv, hs⟩ := insertBuild_valid b d buf hraw ht hc
    constructor
    · rw [hv, ht1000, take_min_len]
    · rw [hs, ht1000]
      show b.Value.drop (min 1000 b.Value.length) = b.Value.drop 1000
      rw [drop_min_len]

/-- C8 (witness): the default cap at a concrete statement (fields: raw,
Table, Column, Value, RunLen, ReturnColumn, RecordID). -/
theorem C8_witness :
    (insertBuild (⟨⟨"", []⟩, "t", ["a"], [[1], [2]], 0, [],
        false⟩ : InsertStmt Nat) ⟨fun s => s⟩ Buffer.empty).stmt.RunLen
      = 1000 ∧
    ((⟨⟨"", []⟩, "t", ["a"], [[1], [2]], 0, [],
        false⟩ : InsertStmt Nat).raw.Query = "" →
      ¬ (⟨⟨"", []⟩, "t", ["a"], [[1], [2]], 0, [],
        false⟩ : InsertStmt Nat).Table = "" →
      ¬ (⟨⟨"", []⟩, "t", ["a"], [[1], [2]], 0, [],
        false⟩ : InsertStmt Nat).Column = [] →
      (insertBuild (⟨⟨"", []⟩, "t", ["a"], [[1], [2]], 0, [],
          false⟩ : InsertStmt Nat) ⟨fun s => s⟩ Buffer.empty).buf.values =
        Buffer.empty.values ++
          (([[1], [2]] : List (List Nat)).take 1000).flatten ∧
      (insertBuild (⟨⟨"", []⟩, "t", ["a"], [[1], [2]], 0, [],
          false⟩ : InsertStmt Nat) ⟨fun s => s⟩ Buffer.empty).stmt.Value =
        ([[1], [2]] : List (List Nat)).drop 1000) :=
  C8_default_cap _ _ _ rfl

/-- C9: with an empty pending row list — in particular for every statement
made by `InsertBySql`, whose query lives in the raw override — the
execution loop performs zero executions (`sent = []`), returns a `nil`
result and a `nil` error (the ExecOut fields are: result, error, stmt,
written, sent, fuelOut), and leaves the statement untouched: a raw-query
insert silently never reaches the database through `ExecContext`. -/
theorem C9_raw_insert_never_executes {α : Type} (run : Runner α)
    (d : Dialect) (b : InsertStmt α) (h : b.Value = []) :
    insertExecContext run d b = ⟨none, none, b, none, [], false⟩ ∧
    (∀ (q : String) (vals : List α),
      insertExecContext run d (InsertBySql q vals) =
        ⟨none, none, InsertBySql q vals, none, [], false⟩) := by
  constructor
  · exact insertExecLoop_empty run d b.Value.length b none none h
  · intro q vals
    exact insertExecLoop_empty run d _ (InsertBySql q vals) none none rfl

/-- C9 (witness): a concrete raw-override insert never reaches the runner. -/
theorem C9_witness :
    insertExecContext (fun _ _ => Except.ok ⟨some 3, 1⟩) ⟨fun s => s⟩
      (InsertBySql "INSERT INTO t VALUES (1)" ([] : List Nat)) =
    ⟨none, none, InsertBySql "INSERT INTO t VALUES (1)" ([] : List Nat),
      none, [], false⟩ :=
  (C9_raw_insert_never_executes (fun _ _ => Except.ok ⟨some 3, 1⟩)
    ⟨fun s => s⟩ (InsertBySql "INSERT INTO t VALUES (1)" ([] : List Nat))
    rfl).1

/-- C10: `GetSQL` compiles a shallow copy (`b1 := *b` in the source; the
copy shares the row slice's backing array, but `Build` only re-slices the
copy's own header and re-assigns the copy's own `RunLen`, never writing
through shared memory), so the caller's statement is unchanged: its
pending `Value` rows and `RunLen` survive, repeated `GetSQL` calls agree,
and a later compile-and-execute consumes exactly the rows that were
pending before `GetSQL`. -/
theorem C10_getSQL_frame {α : Type} (b : InsertStmt α) (d : Dialect) :
    (insertGetSQL b d).2 = b ∧
    (insertGetSQL b d).2.Value = b.Value ∧
    (insertGetSQL b d).2.RunLen = b.RunLen ∧
    (insertGetSQL b d).1 = (insertGetSQL (insertGetSQL b d).2 d).1 ∧
    (∀ (run : Runner α), insertExecContext run d ((insertGetSQL b d).2) =
      insertExecContext run d b) :=
  ⟨rfl, rfl, rfl, rfl, fun _ => rfl⟩

/-- C2: on a valid InsertStmt with effective batch cap `C`
(`(effCap RunLen).toNat`, with `0 ≤ RunLen`), one `Build` call emits
exactly the first `min C R` pending rows (their values, flattened, in
order), advances the pending `Value` list past exactly those rows, and
across repeated calls the `n`-th call's compiled values are exactly the
`n`-th `C`-sized slice of the original input — so no already-consumed row
is ever re-emitted. -/
theorem C2_insert_chunking {α : Type} (b : InsertStmt α) (d : Dialect)
    (hraw : b.raw.Query = "") (ht : ¬ b.Table = "") (hc : ¬ b.Column = [])
    (_hrl : 0 ≤ b.RunLen) :
    (insertBuild b d Buffer.empty).buf.values =
      (b.Value.take (min (effCap b.RunLen).toNat b.Value.length)).flatten ∧
    (b.Value.take (min (effCap b.RunLen).toNat b.Value.length)).length =
      min (effCap b.RunLen).toNat b.Value.length ∧
    (insertBuild b d Buffer.empty).stmt.Value =
      b.Value.drop (min (effCap b.RunLen).toNat b.Value.length) ∧
    (∀ n, nthCallValues d b n =
      ((b.Value.drop (n * (effCap b.RunLen).toNat)).take
        ((effCap b.RunLen).toNat)).flatten) := by
  obtain ⟨-, hv, hs⟩ := insertBuild_valid b d Buffer.empty hraw ht hc
  refine ⟨by rw [hv]; simp [Buffer.empty], ?_, by rw [hs], ?_⟩
  · rw [List.length_take]
    omega
  · intro n
    cases n with
    | zero =>
      show (insertBuild b d Buffer.empty).buf.values = _
      rw [hv, take_min_len]
      simp [Buffer.empty]
    | succ n =>
      show (insertBuild (insertBuildIter d (n + 1) b) d
        Buffer.empty).buf.values = _
      rw [insertBuildIter_stmt d n b hraw ht hc]
      obtain ⟨-, hv2, -⟩ := insertBuild_valid
        { b with RunLen := effCap b.RunLen,
                 Value := b.Value.drop ((n + 1) * (effCap b.RunLen).toNat) }
        d Buffer.empty hraw ht hc
      rw [hv2]
      simp only [effCap_idem, take_min_len]
      simp [Buffer.empty]

/-- C2 (witness): cap 2 over three pending rows: the first call compiles
rows 1–2, leaves row 3 pending, and the second call (call index 1)
compiles exactly the second cap-sized slice. -/
theorem C2_witness :
    (insertBuild (⟨⟨"", []⟩, "t", ["a"], [[1], [2], [3]], 2, [],
        false⟩ : InsertStmt Nat) ⟨fun s => s⟩ Buffer.empty).buf.values
      = [1, 2] ∧
    (insertBuild (⟨⟨"", []⟩, "t", ["a"], [[1], [2], [3]], 2, [],
        false⟩ : InsertStmt Nat) ⟨fun s => s⟩ Buffer.empty).stmt.Value
      = [[3]] ∧
    nthCallValues ⟨fun s => s⟩ (⟨⟨"", []⟩, "t", ["a"], [[1], [2], [3]], 2,
        [], false⟩ : InsertStmt Nat) 1 = [3] :=
  ⟨(C2_insert_chunking _ _ rfl (by decide) (by decide) (by decide)).1,
   (C2_insert_chunking _ _ rfl (by decide) (by decide) (by decide)).2.2.1,
   (C2_insert_chunking _ _ rfl (by decide) (by decide) (by decide)).2.2.2 1⟩

/-- C3: on a valid InsertStmt the chunked execution loop terminates within
its fuel; a compile error never arises; when some chunk's execution
fails, the loop stops right there — the failing chunk is the last one
ever sent (chunks after it are never sent to the runner), every chunk
sent before it succeeded, the error is propagated and the result is
`nil` — and when the loop finishes without error all pending rows were
consumed and the returned result is the last execution's result (`nil`
when nothing was ever sent). -/
theorem C3_exec_stops_on_first_error {α : Type} (run : Runner α)
    (d : Dialect) (b : InsertStmt α) (hraw : b.raw.Query = "")
    (ht : ¬ b.Table = "") (hc : ¬ b.Column = []) (hrl : 0 ≤ b.RunLen) :
    (insertExecContext run d b).fuelOut = false ∧
    (∀ e, (insertExecContext run d b).error ≠ some (ExecError.build e)) ∧
    (∀ s, (insertExecContext run d b).error = some (ExecError.runner s) →
      (insertExecContext run d b).result = none ∧
      (∀ c ∈ (insertExecContext run d b).sent.dropLast,
        ∃ r, run c.1 c.2 = Except.ok r) ∧
      (∃ last, (insertExecContext run d b).sent.getLast? = some last ∧
        run last.1 last.2 = Except.error s)) ∧
    ((insertExecContext run d b).error = none →
      (insertExecContext run d b).stmt.Value = [] ∧
      ((insertExecContext run d b).sent = [] →
        (insertExecContext run d b).result = none) ∧
      (∀ last, (insertExecContext run d b).sent.getLast? = some last →
        ∃ r, run last.1 last.2 = Except.ok r ∧
          (insertExecContext run d b).result = some r)) :=
  insertExecLoop_spec run d b.Value.length b none none hraw ht hc hrl
    (le_refl _)

/-- C3 (witness): a runner that fails on the second chunk: the loop sends
chunks one and two only, reports the second chunk's error with a nil
result, and the first (non-final) sent chunk succeeded. -/
theorem C3_witness :
    (insertExecContext
        (fun _ vs => if vs = [(2 : Nat)] then Except.error "boom"
          else Except.ok ⟨some 1, 1⟩)
        ⟨fun s => s⟩
        (⟨⟨"", []⟩, "t", ["a"], [[1], [2], [3]], 1, [],
          false⟩ : InsertStmt Nat)).result = none ∧
    (∃ last,
      (insertExecContext
          (fun _ vs => if vs = [(2 : Nat)] then Except.error "boom"
            else Except.ok ⟨some 1, 1⟩)
          ⟨fun s => s⟩
          (⟨⟨"", []⟩, "t", ["a"], [[1], [2], [3]], 1, [],
            false⟩ : InsertStmt Nat)).sent.getLast? = some last ∧
      (fun _ vs => if vs = [(2 : Nat)] then Except.error "boom"
        else Except.ok (⟨some 1, 1⟩ : ExecResult)) last.1 last.2
        = Except.error "boom") := by
  have h := (C3_exec_stops_on_first_error
    (fun _ vs => if vs = [(2 : Nat)] then Except.error "boom"
      else Except.ok ⟨some 1, 1⟩)
    ⟨fun s => s⟩
    (⟨⟨"", []⟩, "t", ["a"], [[1], [2], [3]], 1, [],
      false⟩ : InsertStmt Nat) rfl (by decide) (by decide)
    (by decide)).2.2.1 "boom" rfl
  exact ⟨h.1, h.2.2⟩

/-- C7: when the identifier-output slot is bound (`RecordID`) and the
first chunk's execution succeeds with a generated id, that id is written
into the slot and the slot is cleared, so no later chunk's execution can
overwrite the written value — the loop's final written value is the first
chunk's id, whatever happens afterwards. -/
theorem C7_recordid_first_chunk {α : Type} (run : Runner α) (d : Dialect)
    (b : InsertStmt α) (r : ExecResult) (id : Int)
    (hraw : b.raw.Query = "") (ht : ¬ b.Table = "") (hc : ¬ b.Column = [])
    (hrid : b.RecordID = true) (hemp : ¬ b.Value = [])
    (hr : run (insertBuild b d Buffer.empty).buf.text
      (insertBuild b d Buffer.empty).buf.values = Except.ok r)
    (hid : r.lastInsertId = some id) :
    (insertExecContext run d b).written = some id ∧
    (insertExecContext run d b).stmt.RecordID = false := by
  obtain ⟨hres, -, -⟩ := insertBuild_valid b d Buffer.empty hraw ht hc
  have hie : b.Value.isEmpty = false := by
    cases hval : b.Value with
    | nil => exact absurd hval hemp
    | cons x xs => rfl
  have hrid2 : (insertBuild b d Buffer.empty).stmt.RecordID = true := by
    rw [insertBuild_stmt_RecordID]; exact hrid
  cases hval : b.Value with
  | nil => exact absurd hval hemp
  | cons x xs =>
    have hlen : b.Value.length = xs.length + 1 := by rw [hval]; rfl
    show (insertExecLoop run d b.Value.length b none none).written = some id ∧
      (insertExecLoop run d b.Value.length b none none).stmt.RecordID = false
    rw [hlen, insertExecLoop.eq_def]
    simp only [hie, Bool.false_eq_true, if_false, hres, hr, hrid2, if_true,
      hid]
    exact insertExecLoop_frozen run d xs.length _ (some r) (some id) rfl

/-- C7 (witness): two chunks whose executions generate ids 7 then 9; the
slot receives 7 from the first chunk and the second execution does not
overwrite it. -/
theorem C7_witness :
    (insertExecContext
        (fun _ vs => Except.ok ⟨some (if vs = [(1 : Nat)] then 7 else 9), 1⟩)
        ⟨fun s => s⟩
        (⟨⟨"", []⟩, "t", ["a"], [[1], [2]], 1, [],
          true⟩ : InsertStmt Nat)).written = some 7 ∧
    (insertExecContext
        (fun _ vs => Except.ok ⟨some (if vs = [(1 : Nat)] then 7 else 9), 1⟩)
        ⟨fun s => s⟩
        (⟨⟨"", []⟩, "t", ["a"], [[1], [2]], 1, [],
          true⟩ : InsertStmt Nat)).stmt.RecordID = false :=
  C7_recordid_first_chunk
    (fun _ vs => Except.ok ⟨some (if vs = [(1 : Nat)] then 7 else 9), 1⟩)
    ⟨fun s => s⟩
    (⟨⟨"", []⟩, "t", ["a"], [[1], [2]], 1, [], true⟩ : InsertStmt Nat)
    ⟨some 7, 1⟩ 7 rfl (by decide) (by decide) rfl (by decide) rfl rfl

/-- C4 (counterexample): the claim's "placeholder count equals argument
count" conclusion fails on a ragged tuple: with two columns and one
single-value tuple, `Build` emits two `?` placeholders but appends only
one argument — the two sequences desynchronize. -/
theorem C4_counterexample :
    countQ (insertBuild (⟨⟨"", []⟩, "t", ["a", "b"], [[7]], 0, [],
        false⟩ : InsertStmt Nat) ⟨fun s => s⟩ Buffer.empty).buf.text = 2 ∧
    (insertBuild (⟨⟨"", []⟩, "t", ["a", "b"], [[7]], 0, [],
        false⟩ : InsertStmt Nat) ⟨fun s => s⟩ Buffer.empty).buf.values.length
      = 1 ∧
    ¬ countQ (insertBuild (⟨⟨"", []⟩, "t", ["a", "b"], [[7]], 0, [],
        false⟩ : InsertStmt Nat) ⟨fun s => s⟩ Buffer.empty).buf.text =
      (insertBuild (⟨⟨"", []⟩, "t", ["a", "b"], [[7]], 0, [],
        false⟩ : InsertStmt Nat) ⟨fun s => s⟩
        Buffer.empty).buf.values.length := by
  refine ⟨by decide, by decide, by decide⟩

/-- C4 (amended): on a valid InsertStmt whose quoted identifiers contain
no placeholder character, one `Build` call emits exactly
`|Column| * (rows compiled this call)` placeholder tokens and appends the
flattened row values in row-major column order; provided additionally
that every compiled tuple has exactly `|Column|` values (the arity the
`Values` contract requires), the number of placeholders emitted equals
the number of arguments appended. -/
theorem C4_insert_placeholder_args {α : Type} (b : InsertStmt α)
    (d : Dialect) (buf : Buffer α) (hraw : b.raw.Query = "")
    (ht : ¬ b.Table = "") (hc : ¬ b.Column = [])
    (hqt : countQ (d.quoteIdent b.Table) = 0)
    (hqc : ∀ c ∈ b.Column, countQ (d.quoteIdent c) = 0)
    (hqr : ∀ c ∈ b.ReturnColumn, countQ (d.quoteIdent c) = 0)
    (harity : ∀ row ∈ b.Value.take
      (min (effCap b.RunLen).toNat b.Value.length),
      row.length = b.Column.length) :
    countQ (insertBuild b d buf).buf.text =
      countQ buf.text +
        b.Column.length * min (effCap b.RunLen).toNat b.Value.length ∧
    (insertBuild b d buf).buf.values =
      buf.values ++
        (b.Value.take (min (effCap b.RunLen).toNat b.Value.length)).flatten ∧
    ((b.Value.take
        (min (effCap b.RunLen).toNat b.Value.length)).flatten).length =
      b.Column.length * min (effCap b.RunLen).toNat b.Value.length := by
  refine ⟨insertBuild_count b d buf hraw ht hc hqt hqc hqr,
    (insertBuild_valid b d buf hraw ht hc).2.1, ?_⟩
  rw [flatten_length_const b.Column.length _ harity, List.length_take]
  have : min (min (effCap b.RunLen).toNat b.Value.length) b.Value.length =
      min (effCap b.RunLen).toNat b.Value.length := by omega
  rw [this]

/-- C4 (witness): two columns, two well-formed rows, identity quoting:
four placeholders, four arguments, in row-major order. -/
theorem C4_witness :
    countQ (insertBuild (⟨⟨"", []⟩, "t", ["a", "b"], [[1, 2], [3, 4]], 0,
        [], false⟩ : InsertStmt Nat) ⟨fun s => s⟩ Buffer.empty).buf.text
      = 4 ∧
    (insertBuild (⟨⟨"", []⟩, "t", ["a", "b"], [[1, 2], [3, 4]], 0, [],
        false⟩ : InsertStmt Nat) ⟨fun s => s⟩ Buffer.empty).buf.values
      = [1, 2, 3, 4] ∧
    ((([[1, 2], [3, 4]] : List (List Nat)).take
        (min (effCap 0).toNat 2)).flatten).length = 4 :=
  ⟨(C4_insert_placeholder_args
      (⟨⟨"", []⟩, "t", ["a", "b"], [[1, 2], [3, 4]], 0, [],
        false⟩ : InsertStmt Nat) ⟨fun s => s⟩ Buffer.empty rfl (by decide)
      (by decide) (by decide) (by decide) (by decide) (by decide)).1,
   (C4_insert_placeholder_args
      (⟨⟨"", []⟩, "t", ["a", "b"], [[1, 2], [3, 4]], 0, [],
        false⟩ : InsertStmt Nat) ⟨fun s => s⟩ Buffer.empty rfl (by decide)
      (by decide) (by decide) (by decide) (by decide) (by decide)).2.1,
   (C4_insert_placeholder_args
      (⟨⟨"", []⟩, "t", ["a", "b"], [[1, 2], [3, 4]], 0, [],
        false⟩ : InsertStmt Nat) ⟨fun s => s⟩ Buffer.empty rfl (by decide)
      (by decide) (by decide) (by decide) (by decide) (by decide)).2.2⟩

/-- C5: when the SET mapping contains a per-column value that is itself a
raw fragment, `Build` compiles that value as SQL text — the fragment's
query appears verbatim after `col = ` in place of a placeholder token,
and the fragment's own argument list is spliced into the buffer at that
position — and the compile succeeds.  The modelled raw-fragment compile
(`rawBuild`, modelled from the spec) never fails, so the claim's
propagate-the-error clause never fires; note that the source discards
the nested `v.Build` return value at this call site. -/
theorem C5_update_raw_set_value {α : Type} (u : UpdateStmt α) (d : Dialect)
    (buf : Buffer α) (vpre vpost : List (String × SetVal α)) (c q : String)
    (args : List α) (hraw : u.raw.Query = "") (ht : ¬ u.Table = "")
    (hval : u.Value = vpre ++ (c, SetVal.rawv ⟨q, args⟩) :: vpost)
    (hw : ¬ u.WhereCond = []) :
    (updateBuild u d buf).result = UpdResult.ok ∧
    (∃ t1 t2, (updateBuild u d buf).buf.text =
      buf.text ++ "UPDATE " ++ d.quoteIdent u.Table ++ " SET " ++ t1 ++
        d.quoteIdent c ++ " = " ++ q ++ t2) ∧
    (∃ vs1 vs2, (updateBuild u d buf).buf.values =
      buf.values ++ vs1 ++ args ++ vs2) ∧
    (∀ (buf2 : Buffer α), (rawBuild (⟨q, args⟩ : Raw α) d buf2).1 = none) := by
  have hvne : ¬ u.Value = [] := by
    rw [hval]
    cases vpre <;> simp
  have hne : u.Value.isEmpty = false := by
    rw [hval]
    cases vpre <;> rfl
  refine ⟨updateBuild_ok u d buf hraw ht hvne hw, ?_⟩
  cases hwc : u.WhereCond with
  | nil => exact absurd hwc hw
  | cons c0 cs =>
    set buf1 := ((buf.writeString "UPDATE ").writeString
      (d.quoteIdent u.Table)).writeString " SET " with hbuf1
    set X := updSetLoop d 0 buf1 u.Value with hX
    set P := updSetLoop d 0 buf1 vpre with hP
    have hn := andBuild_none d (c0 :: cs) (X.writeString " WHERE ")
    obtain ⟨tw, vw, htw, hvw⟩ := andBuild_extends d (c0 :: cs)
      (X.writeString " WHERE ")
    rcases hab : andBuild d (c0 :: cs) (X.writeString " WHERE ") with ⟨o, bufW⟩
    rw [hab] at hn htw hvw
    simp only at hn htw hvw
    subst hn
    have hXeq : X = updSetLoop d (0 + vpre.length + 1)
        ((rawBuild (⟨q, args⟩ : Raw α) d
          (((if 0 < 0 + vpre.length then P.writeString ", " else P
            ).writeString (d.quoteIdent c)).writeString " = ")).2) vpost := by
      rw [hX, hval, updSetLoop_append d vpre _ 0 buf1, ← hP]
      rfl
    obtain ⟨ts, vs, hts, hvs⟩ := updSetLoop_extends d vpost
      (0 + vpre.length + 1)
      ((rawBuild (⟨q, args⟩ : Raw α) d
        (((if 0 < 0 + vpre.length then P.writeString ", " else P
          ).writeString (d.quoteIdent c)).writeString " = ")).2)
    obtain ⟨tp, vp, htp, hvp⟩ := updSetLoop_extends d vpre 0 buf1
    rw [← hP] at htp hvp
    have hITEt : (if 0 < 0 + vpre.length then P.writeString ", " else P).text
        = P.text ++ (if 0 < vpre.length then ", " else "") := by
      by_cases hp : 0 < vpre.length
      · simp only [Nat.zero_add, hp, if_true]
        rfl
      · simp only [Nat.zero_add, hp, if_false]
        simp [Buffer.writeString]
    have hITEv : (if 0 < 0 + vpre.length then P.writeString ", "
        else P).values = P.values := by
      split <;> rfl
    have hb1t : buf1.text = buf.text ++ "UPDATE " ++ d.quoteIdent u.Table
        ++ " SET " := by rw [hbuf1]; rfl
    have hb1v : buf1.values = buf.values := by rw [hbuf1]; rfl
    have hout : updateBuild u d buf =
        (if 0 ≤ u.LimitCount then
          ⟨UpdResult.ok,
            (bufW.writeString " LIMIT ").writeString (toString u.LimitCount)⟩
        else ⟨UpdResult.ok, bufW⟩) := by
      simp only [updateBuild, hraw, ht, hne, hwc, ne_eq, not_true,
        not_false_iff, if_false, Bool.false_eq_true, ite_false]
      rw [← hbuf1, ← hX, hab]
    have hBtext : (rawBuild (⟨q, args⟩ : Raw α) d
        (((if 0 < 0 + vpre.length then P.writeString ", " else P
          ).writeString (d.quoteIdent c)).writeString " = ")).2.text =
        (if 0 < 0 + vpre.length then P.writeString ", " else P).text ++
          d.quoteIdent c ++ " = " ++ q := rfl
    have hBvalues : (rawBuild (⟨q, args⟩ : Raw α) d
        (((if 0 < 0 + vpre.length then P.writeString ", " else P
          ).writeString (d.quoteIdent c)).writeString " = ")).2.values =
        (if 0 < 0 + vpre.length then P.writeString ", " else P).values ++
          args := rfl
    have htext : bufW.text = buf.text ++ "UPDATE " ++ d.quoteIdent u.Table
        ++ " SET " ++ (tp ++ (if 0 < vpre.length then ", " else "")) ++
        d.quoteIdent c ++ " = " ++ q ++ (ts ++ " WHERE " ++ tw) := by
      rw [htw, writeString_text, hXeq, hts, hBtext, hITEt, htp, hb1t]
      simp [String.append_assoc]
    have hvalues : bufW.values = buf.values ++ vp ++ args ++ (vs ++ vw) := by
      rw [hvw, writeString_values, hXeq, hvs, hBvalues, hITEv, hvp, hb1v]
      simp [List.append_assoc]
    refine ⟨⟨tp ++ (if 0 < vpre.length then ", " else ""),
      (if 0 ≤ u.LimitCount then ts ++ " WHERE " ++ tw ++ " LIMIT " ++
        toString u.LimitCount else ts ++ " WHERE " ++ tw), ?_⟩,
      ⟨vp, vs ++ vw, ?_⟩, fun buf2 => rfl⟩
    · rw [hout]
      by_cases hl : 0 ≤ u.LimitCount
      · simp only [hl, if_true]
        rw [writeString_text, writeString_text, htext]
        simp [String.append_assoc]
      · simp only [hl, if_false]
        rw [htext]
    · rw [hout]
      by_cases hl : 0 ≤ u.LimitCount
      · simp only [hl, if_true]
        rw [writeString_values, writeString_values, hvalues]
      · simp only [hl, if_false]
        rw [hvalues]

/-- C5 (witness): the `col = col + 1` escape hatch at a concrete update
statement: the raw fragment's text is compiled into the SET clause in
place of a placeholder. -/
theorem C5_witness :
    (updateBuild (⟨⟨"", []⟩, "t",
        [("age", SetVal.rawv ⟨"age + 1", []⟩)],
        [Cond.expr "id = 1" []], -1⟩ : UpdateStmt Nat)
      ⟨fun s => s⟩ Buffer.empty).result = UpdResult.ok ∧
    (∃ t1 t2, (updateBuild (⟨⟨"", []⟩, "t",
        [("age", SetVal.rawv ⟨"age + 1", []⟩)],
        [Cond.expr "id = 1" []], -1⟩ : UpdateStmt Nat)
      ⟨fun s => s⟩ Buffer.empty).buf.text =
      (Buffer.empty : Buffer Nat).text ++ "UPDATE " ++
        (Dialect.mk fun s => s).quoteIdent "t" ++ " SET " ++ t1 ++
        (Dialect.mk fun s => s).quoteIdent "age" ++ " = " ++ "age + 1" ++
        t2) ∧
    (∃ vs1 vs2, (updateBuild (⟨⟨"", []⟩, "t",
        [("age", SetVal.rawv ⟨"age + 1", []⟩)],
        [Cond.expr "id = 1" []], -1⟩ : UpdateStmt Nat)
      ⟨fun s => s⟩ Buffer.empty).buf.values =
      (Buffer.empty : Buffer Nat).values ++ vs1 ++ ([] : List Nat) ++ vs2) ∧
    (∀ (buf2 : Buffer Nat),
      (rawBuild (⟨"age + 1", []⟩ : Raw Nat) ⟨fun s => s⟩ buf2).1 = none) :=
  C5_update_raw_set_value
    (⟨⟨"", []⟩, "t", [("age", SetVal.rawv ⟨"age + 1", []⟩)],
      [Cond.expr "id = 1" []], -1⟩ : UpdateStmt Nat)
    ⟨fun s => s⟩ Buffer.empty [] [] "age" "age + 1" [] rfl (by decide)
    rfl (by decide)

/-- C6: with no raw override, `Build` returns `ErrTableNotSpecified`
exactly when the table name is empty, and otherwise returns
`ErrColumnNotSpecified` exactly when the Column list (INSERT) or the SET
value mapping (UPDATE) is empty; in every returned-error case the buffer
is left untouched — no SQL text or arguments are emitted. -/
theorem C6_validation {α : Type} (bi : InsertStmt α) (u : UpdateStmt α)
    (d : Dialect) (bufi bufu : Buffer α) (hri : bi.raw.Query = "")
    (hru : u.raw.Query = "") :
    ((insertBuild bi d bufi).result = InsResult.err DbrError.tableNotSpecified
      ↔ bi.Table = "") ∧
    (¬ bi.Table = "" →
      ((insertBuild bi d bufi).result =
        InsResult.err DbrError.columnNotSpecified ↔ bi.Column = [])) ∧
    (∀ e, (insertBuild bi d bufi).result = InsResult.err e →
      (insertBuild bi d bufi).buf = bufi) ∧
    ((updateBuild u d bufu).result = UpdResult.err DbrError.tableNotSpecified
      ↔ u.Table = "") ∧
    (¬ u.Table = "" →
      ((updateBuild u d bufu).result =
        UpdResult.err DbrError.columnNotSpecified ↔ u.Value = [])) ∧
    (∀ e, (updateBuild u d bufu).result = UpdResult.err e →
      (updateBuild u d bufu).buf = bufu) := by
  have hins : ((insertBuild bi d bufi).result =
      InsResult.err DbrError.tableNotSpecified ↔ bi.Table = "") ∧
      (¬ bi.Table = "" →
        ((insertBuild bi d bufi).result =
          InsResult.err DbrError.columnNotSpecified ↔ bi.Column = [])) ∧
      (∀ e, (insertBuild bi d bufi).result = InsResult.err e →
        (insertBuild bi d bufi).buf = bufi) := by
    by_cases hT : bi.Table = ""
    · simp [insertBuild_tableEmpty bi d bufi hri hT, hT]
    · by_cases hC : bi.Column = []
      · simp [insertBuild_colEmpty bi d bufi hri hT hC, hT, hC]
      · obtain ⟨hres, -, -⟩ := insertBuild_valid bi d bufi hri hT hC
        simp [hres, hT, hC]
  have hupd : ((updateBuild u d bufu).result =
      UpdResult.err DbrError.tableNotSpecified ↔ u.Table = "") ∧
      (¬ u.Table = "" →
        ((updateBuild u d bufu).result =
          UpdResult.err DbrError.columnNotSpecified ↔ u.Value = [])) ∧
      (∀ e, (updateBuild u d bufu).result = UpdResult.err e →
        (updateBuild u d bufu).buf = bufu) := by
    by_cases hT : u.Table = ""
    · simp [updateBuild_tableEmpty u d bufu hru hT, hT]
    · by_cases hV : u.Value = []
      · simp [updateBuild_valEmpty u d bufu hru hT hV, hT, hV]
      · by_cases hW : u.WhereCond = []
        · obtain ⟨hres, -⟩ := updateBuild_noWhere u d bufu hru hT hV hW
          simp [hres, hT, hV]
        · have hres := updateBuild_ok u d bufu hru hT hV hW
          simp [hres, hT, hV]
  exact ⟨hins.1, hins.2.1, hins.2.2, hupd.1, hupd.2.1, hupd.2.2⟩

/-- C6 (witness): an INSERT with an empty table name and an UPDATE with an
empty value mapping, evaluated concretely. -/
theorem C6_witness :
    ((insertBuild (⟨⟨"", []⟩, "", ["a"], [[1]], 0, [],
        false⟩ : InsertStmt Nat) ⟨fun s => s⟩ Buffer.empty).result =
      InsResult.err DbrError.tableNotSpecified ↔ ("" : String) = "") ∧
    (¬ ("" : String) = "" →
      ((insertBuild (⟨⟨"", []⟩, "", ["a"], [[1]], 0, [],
          false⟩ : InsertStmt Nat) ⟨fun s => s⟩ Buffer.empty).result =
        InsResult.err DbrError.columnNotSpecified ↔
          (["a"] : List String) = [])) ∧
    (∀ e, (insertBuild (⟨⟨"", []⟩, "", ["a"], [[1]], 0, [],
        false⟩ : InsertStmt Nat) ⟨fun s => s⟩ Buffer.empty).result =
      InsResult.err e →
      (insertBuild (⟨⟨"", []⟩, "", ["a"], [[1]], 0, [],
        false⟩ : InsertStmt Nat) ⟨fun s => s⟩ Buffer.empty).buf =
        Buffer.empty) ∧
    ((updateBuild (⟨⟨"", []⟩, "t", [], [], -1⟩ : UpdateStmt Nat)
        ⟨fun s => s⟩ Buffer.empty).result =
      UpdResult.err DbrError.tableNotSpecified ↔ ("t" : String) = "") ∧
    (¬ ("t" : String) = "" →
      ((updateBuild (⟨⟨"", []⟩, "t", [], [], -1⟩ : UpdateStmt Nat)
          ⟨fun s => s⟩ Buffer.empty).result =
        UpdResult.err DbrError.columnNotSpecified ↔
          ([] : List (String × SetVal Nat)) = [])) ∧
    (∀ e, (updateBuild (⟨⟨"", []⟩, "t", [], [], -1⟩ : UpdateStmt Nat)
        ⟨fun s => s⟩ Buffer.empty).result = UpdResult.err e →
      (updateBuild (⟨⟨"", []⟩, "t", [], [], -1⟩ : UpdateStmt Nat)
        ⟨fun s => s⟩ Buffer.empty).buf = Buffer.empty) :=
  C6_validation (⟨⟨"", []⟩, "", ["a"], [[1]], 0, [],
      false⟩ : InsertStmt Nat)
    (⟨⟨"", []⟩, "t", [], [], -1⟩ : UpdateStmt Nat)
    ⟨fun s => s⟩ Buffer.empty Buffer.empty rfl rfl
